/-
Verification of the membership reconciliation logic of the
mongodb_replication module (library/mongodb_replication.py).

The Python source is shallowly embedded: database reads (the count of
local.system.replset documents and the result of find_one) are explicit
inputs, the retry loops consume an explicit list of per-attempt
environments, and module.fail_json / module.exit_json terminations are
constructors of result types.
-/
import Mathlib

/-- Python list prefix test on characters: does `n` start `h`? -/
def charsLead : List Char → List Char → Bool
  | [], _ => true
  | _ :: _, [] => false
  | a :: as, b :: bs => a = b && charsLead as bs

/-- Python substring search on character lists: does `n` occur inside `h`? -/
def charsInside (n : List Char) : List Char → Bool
  | [] => n.isEmpty
  | c :: rest => charsLead n (c :: rest) || charsInside n rest

/-- Embedding of the Python expression `n in h` on strings (substring test). -/
def pyIn (n h : String) : Bool := charsInside n.data h.data

/-- Embedding of `"{0}:{1}".format(host_name, host_port)`. -/
def hostPortStr (host_name host_port : String) : String :=
  host_name ++ ":" ++ host_port

/-- One member document of the replica-set configuration.  Optional fields
model the presence or absence of the corresponding dictionary key. -/
structure Member where
  mid : Int
  host : String
  arbiterOnly : Option Bool
  buildIndexes : Option Bool
  hidden : Option Bool
  priority : Option Rat
  slaveDelay : Option Int
  votes : Option Int
  deriving DecidableEq

/-- The replica-set configuration document, as read from
local.system.replset (`_id` of the set is not consulted by the code under
verification and is omitted). -/
structure ReplConfig where
  version : Int
  members : List Member
  deriving DecidableEq

/-- Outcome of one call of `check_members` (source lines 222-246). -/
inductive CheckOutcome
  | failTopology
  | failNoConfig
  | exitNoChange
  | keyError
  | cont
  deriving DecidableEq

/-- The member loop of `check_members` (source lines 232-246), embedded
literally: the same if-structure, with Python `x in s` as `pyIn` and the
lookup `member[ 'arbiterOnly' ]` raising `keyError` when the key is absent
(Python short-circuits `and`, so the lookup only happens when the substring
test on that branch succeeded). -/
def checkLoop (state host_type target : String) : List Member → CheckOutcome
  | [] => .cont
  | m :: rest =>
    if state = "present" then
      if host_type = "replica" then
        if pyIn target m.host then .exitNoChange
        else checkLoop state host_type target rest
      else
        if pyIn target m.host then
          match m.arbiterOnly with
          | none => .keyError
          | some true => .exitNoChange
          | some false => checkLoop state host_type target rest
        else checkLoop state host_type target rest
    else
      if host_type = "replica" then
        if pyIn target m.host then checkLoop state host_type target rest
        else .exitNoChange
      else
        if pyIn target m.host then checkLoop state host_type target rest
        else
          match m.arbiterOnly with
          | none => .keyError
          | some true => .exitNoChange
          | some false => checkLoop state host_type target rest

/-- Embedding of `check_members` (source lines 222-246).  `count` is the
value of `local_db.system.replset.count()` and `cfg` the result of
`find_one()` (`none` models a falsy result). -/
def check_members (state host_name host_port host_type : String)
    (count : Nat) (cfg : Option ReplConfig) : CheckOutcome :=
  if count > 1 then .failTopology
  else
    match cfg with
    | none => .failNoConfig
    | some c => checkLoop state host_type (hostPortStr host_name host_port) c.members

/-- The keyword arguments and host parameters of `add_host`
(source line 249 and the call at lines 484-489). -/
structure AddParams where
  host_name : String
  host_port : String
  host_type : String
  build_indexes : Bool
  hidden : Bool
  priority : Rat
  slave_delay : Int
  votes : Int
  deriving DecidableEq

/-- Environment of one iteration of the `add_host` retry loop: what the
cluster does on that attempt.  `readOk = false` models an
OperationFailure/AutoReconnect raised while reading `local.system.replset`;
`count` and `cfg` are the values read; `reconfigOk = false` models the
`replSetReconfig` command raising such an error; `elapsed` is the value of
`(dtdatetime.now() - start_time).seconds` observed in the except handler of
that attempt and `errTag` identifies the exception raised there. -/
structure AddEnv where
  readOk : Bool
  count : Nat
  cfg : Option ReplConfig
  reconfigOk : Bool
  elapsed : Nat
  errTag : Nat
  deriving DecidableEq

/-- Environment of one iteration of the `remove_host` retry loop. -/
structure RemoveEnv where
  readOk : Bool
  count : Nat
  cfg : Option ReplConfig
  elapsed : Nat
  errTag : Nat
  deriving DecidableEq

/-- How a run of `add_host`/`remove_host` ends.  The `fail*` constructors
are the `module.fail_json` calls of the source (which terminate the module),
`returned` is a normal `return`, `crashed` is an uncaught exception
(`max` of an empty member list), and `stillLooping` means the supplied
attempt environments were exhausted with the `while True` loop still
running. -/
inductive RunResult
  | failTopology
  | failNoConfig
  | failLastMember
  | failHostNotFound
  | failTimeout (errTag : Nat)
  | returned
  | crashed
  | stillLooping
  deriving DecidableEq

/-- Observable trace of a run: every configuration submitted through
`replSetReconfig`, every sleep performed, the number of loop iterations
entered, and how the run ended. -/
structure RunTrace where
  submissions : List ReplConfig
  sleeps : List Nat
  attempts : Nat
  result : RunResult
  deriving DecidableEq

/-- Embedding of `max(cfg['members'], key=lambda x: x['_id'])['_id']`
(source line 264): the maximal `_id`; `none` when the member list is empty,
where Python `max` raises ValueError. -/
def pyMaxId : List Member → Option Int
  | [] => none
  | m :: rest => some (rest.foldl (fun acc x => if x.mid > acc then x.mid else acc) m.mid)

/-- The `new_host` document built at source lines 265-282: mandatory `_id`
and `host`, and each optional key exactly when the corresponding condition
in the source holds. -/
def new_host_doc (p : AddParams) (maxIdVal : Int) : Member :=
  { mid := maxIdVal + 1
  , host := hostPortStr p.host_name p.host_port
  , arbiterOnly := if p.host_type = "arbiter" then some true else none
  , buildIndexes := if p.build_indexes then none else some false
  , hidden := if p.hidden then some true else none
  , priority := if p.priority ≠ 1 then some p.priority else none
  , slaveDelay := if p.slave_delay ≠ 0 then some p.slave_delay else none
  , votes := if p.votes ≠ 1 then some p.votes else none }

/-- The configuration submitted by one successful pass of the `add_host`
body (source lines 263-285): version incremented, new member appended.
`none` models the ValueError crash of `max` on an empty member list. -/
def buildNewCfg (p : AddParams) (c : ReplConfig) : Option ReplConfig :=
  match pyMaxId c.members with
  | none => none
  | some maxIdVal =>
      some { version := c.version + 1, members := c.members ++ [new_host_doc p maxIdVal] }

/-- Default of the `timeout` parameter of `add_host` (source line 249). -/
def add_host_default_timeout : Nat := 180

/-- Embedding of the `add_host` retry loop (source lines 249-290).  Each
list element supplies the cluster behaviour of one `while True` iteration;
an empty list means the loop would keep running. -/
def add_host_run (p : AddParams) (timeout : Nat) : List AddEnv → RunTrace
  | [] => ⟨[], [], 0, .stillLooping⟩
  | e :: rest =>
    if e.readOk then
      if e.count > 1 then ⟨[], [], 1, .failTopology⟩
      else
        match e.cfg with
        | none => ⟨[], [], 1, .failNoConfig⟩
        | some c =>
          match buildNewCfg p c with
          | none => ⟨[], [], 1, .crashed⟩
          | some newCfg =>
            if e.reconfigOk then ⟨[newCfg], [], 1, .returned⟩
            else if e.elapsed > timeout then ⟨[newCfg], [], 1, .failTimeout e.errTag⟩
            else
              let t := add_host_run p timeout rest
              ⟨newCfg :: t.submissions, 5 :: t.sleeps, 1 + t.attempts, t.result⟩
    else
      if e.elapsed > timeout then ⟨[], [], 1, .failTimeout e.errTag⟩
      else
        let t := add_host_run p timeout rest
        ⟨t.submissions, 5 :: t.sleeps, 1 + t.attempts, t.result⟩

/-- The configuration that the attempt described by `e` submits through
`replSetReconfig`, if it reaches the submission point. -/
def attemptSubmission (p : AddParams) (e : AddEnv) : Option ReplConfig :=
  if e.readOk = true ∧ ¬ e.count > 1 then e.cfg.bind (buildNewCfg p) else none

/-- The attempt described by `e` raises a transient error caught by the
except clause of `add_host`: either the read raised, or the body reached
the `replSetReconfig` command and the command raised. -/
def addTransient (p : AddParams) (e : AddEnv) : Prop :=
  e.readOk = false ∨
    (e.readOk = true ∧ ¬ e.count > 1 ∧
      ∃ c newCfg, e.cfg = some c ∧ buildNewCfg p c = some newCfg ∧ e.reconfigOk = false)

/-- Embedding of Python `list.remove(x)`: drop the first element equal to
`x` (member dictionaries compare by structural equality). -/
def pyListRemove (x : Member) : List Member → List Member
  | [] => []
  | y :: ys => if y = x then ys else y :: pyListRemove x ys

/-- Result of the member scan of `remove_host`. -/
inductive ScanResult
  | notFound
  | done (finalMembers : List Member)
  deriving DecidableEq

/-- The `for member in cfg['members']` loop of `remove_host` (source lines
310-315), which mutates the list it iterates over.  Python iterates by an
internal index `i` over the current list state `cur`; the still-to-visit
suffix is `todo = cur.drop i`.  On a match, `cur.remove(member)` drops the
first element equal to `member`, which sits at an index `≤ i` (the member
itself is at `i`), so the list shifts left by one at or before the
iterator: the next iteration (index `i + 1`) lands two elements further
into the old suffix, i.e. the element right after the match is skipped.
The loop aborts on the first member whose `host` does not contain
`host_name` as a substring, and completing the loop yields the mutated
list. -/
def removeScanGo (host_name : String) (cur : List Member) : List Member → ScanResult
  | [] => .done cur
  | [m] =>
    if pyIn host_name m.host then .done (pyListRemove m cur) else .notFound
  | m :: _ :: rest =>
    if pyIn host_name m.host then removeScanGo host_name (pyListRemove m cur) rest
    else .notFound

/-- The scan of `remove_host` started on the freshly read member list. -/
def removeScan (host_name : String) (ms : List Member) : ScanResult :=
  removeScanGo host_name ms ms

/-- Embedding of the `remove_host` retry loop (source lines 293-319).  Note
that the source body never calls `replSetReconfig` and never returns: a
completed scan simply re-enters the `while True` loop (with a fresh read,
supplied by the next environment in the list, and with no sleep). -/
def remove_host_run (host_name : String) (timeout : Nat) : List RemoveEnv → RunTrace
  | [] => ⟨[], [], 0, .stillLooping⟩
  | e :: rest =>
    if e.readOk then
      if e.count > 1 then ⟨[], [], 1, .failTopology⟩
      else
        match e.cfg with
        | none => ⟨[], [], 1, .failNoConfig⟩
        | some c =>
          if c.members.length = 1 then ⟨[], [], 1, .failLastMember⟩
          else
            match removeScan host_name c.members with
            | .notFound => ⟨[], [], 1, .failHostNotFound⟩
            | .done _ =>
              let t := remove_host_run host_name timeout rest
              ⟨t.submissions, t.sleeps, 1 + t.attempts, t.result⟩
    else
      if e.elapsed > timeout then ⟨[], [], 1, .failTimeout e.errTag⟩
      else
        let t := remove_host_run host_name timeout rest
        ⟨t.submissions, 5 :: t.sleeps, 1 + t.attempts, t.result⟩

/-- Outcome of the `authenticate` helper (source lines 360-370). -/
inductive AuthOutcome
  | authCall (user password : String)
  | noAuth
  | failAmbiguous
  deriving DecidableEq

/-- The final guarded call `client.admin.authenticate(...)` of
`authenticate` (source lines 369-370). -/
def authFinal : Option String → Option String → AuthOutcome
  | some u, some p => .authCall u p
  | _, _ => .noAuth

/-- Embedding of `authenticate` (source lines 360-370), with the credential
file contents (`load_mongocnf()`) as an explicit input: `none` models the
function returning `False`. -/
def authenticate (login_user login_password : Option String)
    (mongocnf : Option (String × String)) : AuthOutcome :=
  if login_user = none ∧ login_password = none then
    match mongocnf with
    | some (u, p) => authFinal (some u) (some p)
    | none =>
      if login_password = none ∧ login_user ≠ none then .failAmbiguous
      else authFinal login_user login_password
  else authFinal login_user login_password

/-- Python list comparison `a < b` on LooseVersion component lists
(lexicographic on the numeric components). -/
def vlt : List Nat → List Nat → Bool
  | [], [] => false
  | [], _ :: _ => true
  | _ :: _, [] => false
  | a :: as, b :: bs => a < b || (a = b && vlt as bs)

/-- Python `a <= b` on version component lists. -/
def vle (a b : List Nat) : Bool := !(vlt b a)

/-- Python `a >= b` on version component lists. -/
def vge (a b : List Nat) : Bool := !(vlt a b)

/-- Split a character list on the dot separators. -/
def splitOnDot : List Char → List (List Char)
  | [] => [[]]
  | c :: rest =>
    match splitOnDot rest, decide (c = '.') with
    | r, true => [] :: r
    | [], false => [[c]]
    | g :: gs, false => (c :: g) :: gs

/-- Numeric value of one version component (0 for a malformed component). -/
def compToNat (g : List Char) : Nat :=
  if g ≠ [] ∧ g.all (fun c => c.isDigit) then
    g.foldl (fun n c => n * 10 + (c.toNat - 48)) 0
  else 0

/-- LooseVersion parsing restricted to dotted numeric version strings (the
fragment exercised by the module): split on the dots and read each
component as a number. -/
def looseVer (s : String) : List Nat :=
  (splitOnDot s.data).map compToNat

/-- Embedding of `check_compatibility` (source lines 193-219) on parsed
version component lists: the if/elif chain in source order, returning the
index of the rule whose `fail_json` fires, or `none` when the gate passes. -/
def check_compatibility (srv drv : List Nat) : Option Nat :=
  if vge srv [4, 0] && vlt drv [3, 7] then some 0
  else if vge srv [3, 6] && vlt drv [3, 6] then some 1
  else if vge srv [3, 2] && vlt drv [3, 2] then some 2
  else if vge srv [3, 0] && vle drv [2, 8] then some 3
  else if vge srv [2, 6] && vle drv [2, 7] then some 4
  else if vle drv [2, 5] then some 5
  else none

/-- `check_compatibility` on the version strings as reported by the server
and the driver. -/
def check_compatibility_str (srv drv : String) : Option Nat :=
  check_compatibility (looseVer srv) (looseVer drv)

/-- The six conditions of the compatibility table, in source order
(newest server floor first). -/
def compatConds (srv drv : List Nat) : List Bool :=
  [ vge srv [4, 0] && vlt drv [3, 7]
  , vge srv [3, 6] && vlt drv [3, 6]
  , vge srv [3, 2] && vlt drv [3, 2]
  , vge srv [3, 0] && vle drv [2, 8]
  , vge srv [2, 6] && vle drv [2, 7]
  , vle drv [2, 5] ]

/-- Index of the first `true` in a list of booleans. -/
def firstTrueIdx : List Bool → Option Nat
  | [] => none
  | b :: bs => if b then some 0 else (firstTrueIdx bs).map (· + 1)

/-- Sample data member with host `a:1`. -/
def memA : Member := ⟨0, "a:1", none, none, none, none, none, none⟩

/-- Sample data member with host `b:2`. -/
def memB : Member := ⟨1, "b:2", none, none, none, none, none, none⟩

/-- Sample two-member configuration. -/
def cfgAB : ReplConfig := ⟨7, [memA, memB]⟩

/-- Sample one-member configuration. -/
def cfgOne : ReplConfig := ⟨3, [memA]⟩

/-- Configuration whose only member host strictly contains `b:2`. -/
def cfgSub : ReplConfig := ⟨1, [⟨0, "xb:2", none, none, none, none, none, none⟩]⟩

/-- Add-request parameters with every attribute at its default. -/
def pReplica : AddParams := ⟨"b", "2", "replica", true, false, 1, 0, 1⟩

/-- Arbiter add-request parameters with non-default attributes. -/
def pArbiter : AddParams := ⟨"b", "2", "arbiter", false, true, 2, 3, 4⟩

/-- The final authentication call never yields the ambiguous-credentials
failure. -/
theorem authFinal_ne_failAmbiguous (a b : Option String) :
    authFinal a b ≠ .failAmbiguous := by
  cases a <;> cases b <;> simp [authFinal]

/-- C1.  The remove operation does not implement the stated contract: on a
two-member configuration that does contain the desired host (`b`, matching
member `b:2`), the very first loop iteration hits the non-matching member
`a:1` and fails with the not-found error, submitting nothing — the scan
aborts on the first non-matching member instead of scanning for the match,
and no `replSetReconfig` is ever issued. -/
theorem remove_host_aborts_despite_match :
    remove_host_run "b" 180 [⟨true, 1, some cfgAB, 0, 0⟩] = ⟨[], [], 1, .failHostNotFound⟩
  ∧ (∃ m ∈ cfgAB.members, pyIn "b" m.host = true)
  ∧ cfgAB.members.length > 1 := by decide

/-- C3.  The add-then-remove round trip fails on the code: starting from
one member `a:1` at version 3, adding `b:2` submits the expected
two-member version-4 configuration, but the subsequent removal of `b`
aborts with the not-found failure on the first member `a:1` and submits
nothing, so the member set never returns to its original content. -/
theorem add_then_remove_roundtrip_fails :
    add_host_run pReplica 180 [⟨true, 1, some cfgOne, true, 0, 0⟩] =
      ⟨[⟨4, [memA, memB]⟩], [], 1, .returned⟩
  ∧ remove_host_run "b" 180 [⟨true, 1, some ⟨4, [memA, memB]⟩, 0, 0⟩] =
      ⟨[], [], 1, .failHostNotFound⟩ := by decide

/-- C4.  The Absent idempotence check is wrong on the code: with members
`[a:1, b:2]` and desired host `b:2`, a matching member exists (so the claim
says the request is not yet satisfied), yet `check_members` exits with
changed = false on the first member `a:1` because that member fails the
substring test. -/
theorem absent_check_false_positive :
    check_members "absent" "b" "2" "replica" 1 (some cfgAB) = .exitNoChange
  ∧ (∃ m ∈ cfgAB.members, pyIn (hostPortStr "b" "2") m.host = true) := by decide

/-- C5 counterexample.  Matching is not hostPort equality: the only member
host is `xb:2`, which merely contains `b:2` as a substring, yet the Present
check declares the request already satisfied. -/
theorem present_check_matches_on_substring :
    check_members "present" "b" "2" "replica" 1 (some cfgSub) = .exitNoChange
  ∧ (∀ m ∈ cfgSub.members, m.host ≠ hostPortStr "b" "2") := by decide

/-- C9.  The ambiguous-credentials guard is dead code: with only a user
supplied (and likewise only a password), `authenticate` neither fails nor
authenticates — it silently proceeds — and no input at all can reach the
fail branch, because that branch is nested under the condition that both
credentials are absent. -/
theorem authenticate_one_sided_proceeds :
    authenticate (some "u") none none = .noAuth
  ∧ authenticate none (some "p") none = .noAuth
  ∧ ∀ lu lp cnf, authenticate lu lp cnf ≠ .failAmbiguous := by
  refine ⟨by decide, by decide, ?_⟩
  intro lu lp cnf h
  unfold authenticate at h
  by_cases h1 : lu = none ∧ lp = none
  · rw [if_pos h1] at h
    rcases cnf with _ | ⟨u, pw⟩
    · have h2 : ¬ (lp = none ∧ lu ≠ none) := fun hc => hc.2 h1.1
      rw [if_neg h2] at h
      exact authFinal_ne_failAmbiguous lu lp h
    · exact authFinal_ne_failAmbiguous (some u) (some pw) h
  · rw [if_neg h1] at h
    exact authFinal_ne_failAmbiguous lu lp h

/-- C2.  `remove_host` never returns normally and never issues a
`replSetReconfig` command: whatever the per-attempt environments, the run
submits nothing and ends either in one of the `fail_json` terminations
(first non-matching member, last-member guard, topology or no-config
error, or timeout after repeated read failures) or still inside the
`while True` loop. -/
theorem remove_host_never_reconfigures (host_name : String) (timeout : Nat)
    (envs : List RemoveEnv) :
    (remove_host_run host_name timeout envs).submissions = []
  ∧ (remove_host_run host_name timeout envs).result ≠ .returned
  ∧ (remove_host_run host_name timeout envs).result ≠ .crashed := by
  induction envs with
  | nil => simp [remove_host_run]
  | cons e rest ih =>
    unfold remove_host_run
    by_cases hr : e.readOk
    · simp only [hr, if_true]
      by_cases hc : e.count > 1
      · simp [hc]
      · simp only [hc, if_false]
        rcases e.cfg with _ | c
        · simp
        · simp only []
          by_cases h1 : c.members.length = 1
          · simp [h1]
          · simp only [h1, if_false]
            rcases hscan : removeScan host_name c.members with _ | fin
            · simp
            · simpa using ih
    · simp only [hr]
      by_cases ht : e.elapsed > timeout
      · simp [ht]
      · simp only [ht, if_false]
        simpa using ih

/-- C8.  Last-member guard: whenever an attempt of `remove_host` reads a
configuration whose member sequence has exactly one entry, the run stops at
that attempt with the last-member failure and no command was submitted. -/
theorem remove_last_member_guard (host_name : String) (timeout : Nat) (e : RemoveEnv)
    (rest : List RemoveEnv) (c : ReplConfig)
    (hread : e.readOk = true) (hcount : ¬ e.count > 1) (hcfg : e.cfg = some c)
    (hone : c.members.length = 1) :
    remove_host_run host_name timeout (e :: rest) = ⟨[], [], 1, .failLastMember⟩ := by
  unfold remove_host_run
  simp [hread, hcount, hcfg, hone]

/-- Witness for C8 at a concrete one-member configuration. -/
theorem remove_last_member_guard_witness :
    remove_host_run "a" 180 [⟨true, 1, some cfgOne, 0, 0⟩] = ⟨[], [], 1, .failLastMember⟩ :=
  remove_last_member_guard "a" 180 ⟨true, 1, some cfgOne, 0, 0⟩ [] cfgOne rfl
    (by decide) rfl rfl

/-- The Present/replica branch of the member loop exits with changed =
false exactly when some member host contains the target as a substring. -/
theorem checkLoop_present_replica (target : String) (ms : List Member) :
    checkLoop "present" "replica" target ms = .exitNoChange ↔
      ∃ m ∈ ms, pyIn target m.host = true := by
  induction ms with
  | nil => simp [checkLoop]
  | cons m rest ih =>
    cases hp : pyIn target m.host
    · simp [checkLoop, hp, ih]
    · simp [checkLoop, hp]

/-- The Present/arbiter branch, on members that all carry the arbiterOnly
key, exits with changed = false exactly when some member host contains the
target and that member has arbiterOnly true. -/
theorem checkLoop_present_arbiter (target : String) (ms : List Member)
    (hflags : ∀ m ∈ ms, (m.arbiterOnly).isSome = true) :
    checkLoop "present" "arbiter" target ms = .exitNoChange ↔
      ∃ m ∈ ms, pyIn target m.host = true ∧ m.arbiterOnly = some true := by
  induction ms with
  | nil => simp [checkLoop]
  | cons m rest ih =>
    have hrest : ∀ x ∈ rest, (x.arbiterOnly).isSome = true :=
      fun x hx => hflags x (List.mem_cons_of_mem m hx)
    rcases ho : m.arbiterOnly with _ | b
    · have := hflags m (List.mem_cons_self m rest)
      rw [ho] at this
      simp at this
    · cases hp : pyIn target m.host
      · simp [checkLoop, hp, ho, ih hrest]
      · cases b
        · simp [checkLoop, hp, ho, ih hrest]
        · simp [checkLoop, hp, ho]

/-- The Present/arbiter branch raises a key error (not a no-arbiter
verdict) when every host-matching member lacks the arbiterOnly key and at
least one member matches. -/
theorem checkLoop_present_arbiter_keyError (target : String) (ms : List Member)
    (hnone : ∀ m ∈ ms, pyIn target m.host = true → m.arbiterOnly = none)
    (hex : ∃ m ∈ ms, pyIn target m.host = true) :
    checkLoop "present" "arbiter" target ms = .keyError := by
  induction ms with
  | nil => rcases hex with ⟨m, hm, _⟩; cases hm
  | cons m rest ih =>
    cases hp : pyIn target m.host
    · rcases hex with ⟨x, hx, hpx⟩
      rcases List.mem_cons.mp hx with rfl | hx'
      · rw [hp] at hpx; cases hpx
      · have hrest : ∀ y ∈ rest, pyIn target y.host = true → y.arbiterOnly = none :=
          fun y hy => hnone y (List.mem_cons_of_mem m hy)
        simpa [checkLoop, hp] using ih hrest ⟨x, hx', hpx⟩
    · have h0 := hnone m (List.mem_cons_self m rest) hp
      simp [checkLoop, hp, h0]

/-- C5 (amended).  The actual matching rule of the Present check: a member
matches when `"hostname:port"` occurs as a substring of its host field (not
when it equals it); a Present replica request is declared satisfied iff
such a member exists; for an arbiter request, provided all members carry
the arbiterOnly key, it is satisfied iff a substring-matching member has
arbiterOnly true; and a member lacking the arbiterOnly key is not treated
as not-arbiter — if every matching member lacks the key, the check raises a
key error. -/
theorem present_check_substring_rule (host_name host_port : String) (count : Nat)
    (c : ReplConfig) (hcount : ¬ count > 1) :
    (check_members "present" host_name host_port "replica" count (some c) = .exitNoChange ↔
      ∃ m ∈ c.members, pyIn (hostPortStr host_name host_port) m.host = true)
  ∧ ((∀ m ∈ c.members, (m.arbiterOnly).isSome = true) →
      (check_members "present" host_name host_port "arbiter" count (some c) = .exitNoChange ↔
        ∃ m ∈ c.members, pyIn (hostPortStr host_name host_port) m.host = true ∧
          m.arbiterOnly = some true))
  ∧ ((∀ m ∈ c.members,
        pyIn (hostPortStr host_name host_port) m.host = true → m.arbiterOnly = none) →
      (∃ m ∈ c.members, pyIn (hostPortStr host_name host_port) m.host = true) →
      check_members "present" host_name host_port "arbiter" count (some c) = .keyError) := by
  unfold check_members
  simp only [hcount, if_false]
  exact ⟨checkLoop_present_replica _ _,
    fun h => checkLoop_present_arbiter _ _ h,
    fun h1 h2 => checkLoop_present_arbiter_keyError _ _ h1 h2⟩

/-- Witness for C5 at a concrete two-member configuration. -/
theorem present_check_substring_rule_witness :
    (check_members "present" "b" "2" "replica" 1 (some cfgAB) = .exitNoChange ↔
      ∃ m ∈ cfgAB.members, pyIn (hostPortStr "b" "2") m.host = true)
  ∧ ((∀ m ∈ cfgAB.members, (m.arbiterOnly).isSome = true) →
      (check_members "present" "b" "2" "arbiter" 1 (some cfgAB) = .exitNoChange ↔
        ∃ m ∈ cfgAB.members, pyIn (hostPortStr "b" "2") m.host = true ∧
          m.arbiterOnly = some true))
  ∧ ((∀ m ∈ cfgAB.members,
        pyIn (hostPortStr "b" "2") m.host = true → m.arbiterOnly = none) →
      (∃ m ∈ cfgAB.members, pyIn (hostPortStr "b" "2") m.host = true) →
      check_members "present" "b" "2" "arbiter" 1 (some cfgAB) = .keyError) :=
  present_check_substring_rule "b" "2" 1 cfgAB (by decide)

/-- The running fold of the member-id maximum dominates the accumulator and
every visited id, and is either the accumulator or a visited id. -/
theorem maxFold_spec (l : List Member) (acc : Int) :
    acc ≤ l.foldl (fun a x => if x.mid > a then x.mid else a) acc
  ∧ (∀ m ∈ l, m.mid ≤ l.foldl (fun a x => if x.mid > a then x.mid else a) acc)
  ∧ (l.foldl (fun a x => if x.mid > a then x.mid else a) acc = acc ∨
      ∃ m ∈ l, l.foldl (fun a x => if x.mid > a then x.mid else a) acc = m.mid) := by
  induction l generalizing acc with
  | nil => simp
  | cons x xs ih =>
    have step : (x :: xs).foldl (fun a y => if y.mid > a then y.mid else a) acc =
        xs.foldl (fun a y => if y.mid > a then y.mid else a)
          (if x.mid > acc then x.mid else acc) := rfl
    rcases ih (if x.mid > acc then x.mid else acc) with ⟨h1, h2, h3⟩
    refine ⟨?_, ?_, ?_⟩
    · rw [step]
      by_cases hx : x.mid > acc
      · simp only [hx, if_true] at h1 ⊢; omega
      · simpa [hx] using h1
    · intro m hm
      rw [step]
      rcases List.mem_cons.mp hm with rfl | hm'
      · by_cases hx : m.mid > acc
        · simpa [hx] using h1
        · simp only [hx, if_false] at h1 ⊢; omega
      · exact h2 m hm'
    · rw [step]
      rcases h3 with h3 | ⟨m, hm, hmv⟩
      · by_cases hx : x.mid > acc
        · right; exact ⟨x, List.mem_cons_self x xs, by simpa [hx] using h3⟩
        · left; simpa [hx] using h3
      · right; exact ⟨m, List.mem_cons_of_mem x hm, hmv⟩

/-- On a non-empty member list `pyMaxId` returns a value that is the
maximum of the member ids. -/
theorem pyMaxId_spec (m0 : Member) (ms : List Member) :
    ∃ maxIdVal, pyMaxId (m0 :: ms) = some maxIdVal
    ∧ (∀ m ∈ m0 :: ms, m.mid ≤ maxIdVal)
    ∧ (∃ m ∈ m0 :: ms, m.mid = maxIdVal) := by
  rcases maxFold_spec ms m0.mid with ⟨h1, h2, h3⟩
  refine ⟨ms.foldl (fun a x => if x.mid > a then x.mid else a) m0.mid,
    by simp [pyMaxId], ?_, ?_⟩
  · intro m hm
    rcases List.mem_cons.mp hm with rfl | hm'
    · exact h1
    · exact h2 m hm'
  · rcases h3 with h3 | ⟨m, hm, hmv⟩
    · exact ⟨m0, List.mem_cons_self m0 ms, h3.symm⟩
    · exact ⟨m, List.mem_cons_of_mem m0 hm, hmv.symm⟩

/-- C6.  Add postcondition: on an attempt that reads a valid non-empty
configuration lacking the member and whose `replSetReconfig` is accepted,
`add_host` submits exactly one configuration, whose version is the freshly
read version plus 1, whose member list is the read list with exactly one
member appended; the new member id is (max existing member id) + 1, its
host is `"hostname:port"`, arbiterOnly is present (true) exactly for an
arbiter request, and each optional attribute is present exactly when it
differs from its default (buildIndexes false, hidden true, priority not 1,
slaveDelay not 0, votes not 1), carrying the requested value. -/
theorem add_host_postcondition (p : AddParams) (timeout : Nat) (e : AddEnv)
    (rest : List AddEnv) (c : ReplConfig)
    (hread : e.readOk = true) (hcount : ¬ e.count > 1) (hcfg : e.cfg = some c)
    (hne : c.members ≠ []) (hrec : e.reconfigOk = true)
    (hlack : ∀ m ∈ c.members, pyIn (hostPortStr p.host_name p.host_port) m.host = false) :
    ∃ maxIdVal, pyMaxId c.members = some maxIdVal
    ∧ (∀ m ∈ c.members, m.mid ≤ maxIdVal)
    ∧ (∃ m ∈ c.members, m.mid = maxIdVal)
    ∧ add_host_run p timeout (e :: rest) =
        ⟨[⟨c.version + 1, c.members ++ [new_host_doc p maxIdVal]⟩], [], 1, .returned⟩
    ∧ (new_host_doc p maxIdVal).mid = maxIdVal + 1
    ∧ (new_host_doc p maxIdVal).host = hostPortStr p.host_name p.host_port
    ∧ ((new_host_doc p maxIdVal).arbiterOnly = some true ↔ p.host_type = "arbiter")
    ∧ ((new_host_doc p maxIdVal).buildIndexes = some false ↔ p.build_indexes = false)
    ∧ ((new_host_doc p maxIdVal).hidden = some true ↔ p.hidden = true)
    ∧ ((new_host_doc p maxIdVal).priority = some p.priority ↔ p.priority ≠ 1)
    ∧ ((new_host_doc p maxIdVal).priority = none ↔ p.priority = 1)
    ∧ ((new_host_doc p maxIdVal).slaveDelay = some p.slave_delay ↔ p.slave_delay ≠ 0)
    ∧ ((new_host_doc p maxIdVal).slaveDelay = none ↔ p.slave_delay = 0)
    ∧ ((new_host_doc p maxIdVal).votes = some p.votes ↔ p.votes ≠ 1)
    ∧ ((new_host_doc p maxIdVal).votes = none ↔ p.votes = 1) := by
  rcases c with ⟨ver, members⟩
  rcases members with _ | ⟨m0, ms⟩
  · exact absurd rfl hne
  rcases pyMaxId_spec m0 ms with ⟨maxIdVal, hmax, hle, hmem⟩
  refine ⟨maxIdVal, hmax, hle, hmem, ?_, rfl, rfl, ?_, ?_, ?_, ?_, ?_, ?_, ?_, ?_, ?_⟩
  · unfold add_host_run
    simp only [hread, if_true, hcount, if_false, hcfg]
    simp [buildNewCfg, hmax, hrec]
  · unfold new_host_doc
    by_cases ha : p.host_type = "arbiter" <;> simp [ha]
  · unfold new_host_doc
    cases hb : p.build_indexes <;> simp [hb]
  · unfold new_host_doc
    cases hh : p.hidden <;> simp [hh]
  · unfold new_host_doc
    by_cases hp : p.priority = 1 <;> simp [hp]
  · unfold new_host_doc
    by_cases hp : p.priority = 1 <;> simp [hp]
  · unfold new_host_doc
    by_cases hs : p.slave_delay = 0 <;> simp [hs]
  · unfold new_host_doc
    by_cases hs : p.slave_delay = 0 <;> simp [hs]
  · unfold new_host_doc
    by_cases hv : p.votes = 1 <;> simp [hv]
  · unfold new_host_doc
    by_cases hv : p.votes = 1 <;> simp [hv]

/-- Witness for C6: an arbiter request with non-default attributes against
the one-member configuration. -/
theorem add_host_postcondition_witness :
    ∃ maxIdVal, pyMaxId cfgOne.members = some maxIdVal
    ∧ (∀ m ∈ cfgOne.members, m.mid ≤ maxIdVal)
    ∧ (∃ m ∈ cfgOne.members, m.mid = maxIdVal)
    ∧ add_host_run pArbiter 180 [⟨true, 1, some cfgOne, true, 0, 0⟩] =
        ⟨[⟨cfgOne.version + 1, cfgOne.members ++ [new_host_doc pArbiter maxIdVal]⟩], [], 1,
          .returned⟩
    ∧ (new_host_doc pArbiter maxIdVal).mid = maxIdVal + 1
    ∧ (new_host_doc pArbiter maxIdVal).host = hostPortStr pArbiter.host_name pArbiter.host_port
    ∧ ((new_host_doc pArbiter maxIdVal).arbiterOnly = some true ↔
        pArbiter.host_type = "arbiter")
    ∧ ((new_host_doc pArbiter maxIdVal).buildIndexes = some false ↔
        pArbiter.build_indexes = false)
    ∧ ((new_host_doc pArbiter maxIdVal).hidden = some true ↔ pArbiter.hidden = true)
    ∧ ((new_host_doc pArbiter maxIdVal).priority = some pArbiter.priority ↔
        pArbiter.priority ≠ 1)
    ∧ ((new_host_doc pArbiter maxIdVal).priority = none ↔ pArbiter.priority = 1)
    ∧ ((new_host_doc pArbiter maxIdVal).slaveDelay = some pArbiter.slave_delay ↔
        pArbiter.slave_delay ≠ 0)
    ∧ ((new_host_doc pArbiter maxIdVal).slaveDelay = none ↔ pArbiter.slave_delay = 0)
    ∧ ((new_host_doc pArbiter maxIdVal).votes = some pArbiter.votes ↔ pArbiter.votes ≠ 1)
    ∧ ((new_host_doc pArbiter maxIdVal).votes = none ↔ pArbiter.votes = 1) :=
  add_host_postcondition pArbiter 180 ⟨true, 1, some cfgOne, true, 0, 0⟩ [] cfgOne rfl
    (by decide) rfl (by decide) rfl (by decide)

/-- Every sleep performed by the `add_host` retry loop lasts 5 time
units. -/
theorem add_host_run_sleeps_five (p : AddParams) (timeout : Nat) (envs : List AddEnv) :
    ∀ s ∈ (add_host_run p timeout envs).sleeps, s = 5 := by
  induction envs with
  | nil => simp [add_host_run]
  | cons e rest ih =>
    unfold add_host_run
    by_cases hr : e.readOk
    · simp only [hr, if_true]
      by_cases hc : e.count > 1
      · simp [hc]
      · simp only [hc, if_false]
        rcases e.cfg with _ | c
        · simp
        · rcases hb : buildNewCfg p c with _ | newCfg
          · simp [hb]
          · simp only [hb]
            by_cases hrc : e.reconfigOk
            · simp [hrc]
            · simp only [hrc, if_false]
              by_cases ht : e.elapsed > timeout
              · simp [ht]
              · simp only [ht, if_false]
                intro s hs
                rcases List.mem_cons.mp hs with rfl | hs'
                · rfl
                · exact ih s hs'
    · simp only [hr]
      by_cases ht : e.elapsed > timeout
      · simp [ht]
      · simp only [ht, if_false]
        intro s hs
        rcases List.mem_cons.mp hs with rfl | hs'
        · rfl
        · exact ih s hs'

/-- Every configuration submitted during an `add_host` run is the one built
from the snapshot read in its own attempt: the submission list is exactly
the per-attempt submissions of the consumed attempt prefix, so no write
ever reuses a configuration read in an earlier attempt. -/
theorem add_host_run_submissions_fresh (p : AddParams) (timeout : Nat)
    (envs : List AddEnv) :
    (add_host_run p timeout envs).submissions =
      (envs.take (add_host_run p timeout envs).attempts).filterMap (attemptSubmission p) := by
  induction envs with
  | nil => simp [add_host_run]
  | cons e rest ih =>
    unfold add_host_run
    by_cases hr : e.readOk
    · simp only [hr, if_true]
      by_cases hc : e.count > 1
      · simp [hc, attemptSubmission]
      · simp only [hc, if_false]
        rcases hcfg : e.cfg with _ | c
        · simp [attemptSubmission, hr, hc, hcfg]
        · rcases hb : buildNewCfg p c with _ | newCfg
          · simp [hb, attemptSubmission, hr, hc, hcfg]
          · simp only [hb]
            by_cases hrc : e.reconfigOk
            · simp [hrc, attemptSubmission, hr, hc, hcfg, hb]
            · simp only [hrc, if_false]
              by_cases ht : e.elapsed > timeout
              · simp [ht, attemptSubmission, hr, hc, hcfg, hb]
              · simp only [ht, if_false]
                have htake : (e :: rest).take (1 + (add_host_run p timeout rest).attempts) =
                    e :: rest.take ((add_host_run p timeout rest).attempts) := by
                  rw [Nat.add_comm]
                  rfl
                simp [attemptSubmission, hr, hc, hcfg, hb, ih, htake, List.filterMap_cons]
    · simp only [hr]
      by_cases ht : e.elapsed > timeout
      · simp [ht, attemptSubmission, hr]
      · simp only [ht, if_false]
        have htake : (e :: rest).take (1 + (add_host_run p timeout rest).attempts) =
            e :: rest.take ((add_host_run p timeout rest).attempts) := by
          rw [Nat.add_comm]
          rfl
        simp [attemptSubmission, hr, ih, htake, List.filterMap_cons]

/-- C7.  Retry policy of `add_host`: the default timeout is 180 time units;
every sleep is 5 time units; every submitted configuration is built from
the snapshot read in its own attempt (never from an earlier one); and on a
transient failure the loop fails with the timeout error carrying that
attempt's underlying error when the elapsed time exceeds the timeout, and
otherwise sleeps 5 and restarts the whole cycle, whose outcome is that of
the remaining fresh attempts. -/
theorem add_host_retry_policy (p : AddParams) (timeout : Nat) (envs : List AddEnv)
    (e : AddEnv) (rest : List AddEnv) (htr : addTransient p e) :
    add_host_default_timeout = 180
  ∧ (∀ s ∈ (add_host_run p timeout envs).sleeps, s = 5)
  ∧ (add_host_run p timeout envs).submissions =
      (envs.take (add_host_run p timeout envs).attempts).filterMap (attemptSubmission p)
  ∧ (e.elapsed > timeout →
      (add_host_run p timeout (e :: rest)).result = .failTimeout e.errTag)
  ∧ (¬ e.elapsed > timeout →
      (add_host_run p timeout (e :: rest)).result = (add_host_run p timeout rest).result
      ∧ (add_host_run p timeout (e :: rest)).sleeps =
          5 :: (add_host_run p timeout rest).sleeps) := by
  refine ⟨rfl, add_host_run_sleeps_five p timeout envs,
    add_host_run_submissions_fresh p timeout envs, ?_, ?_⟩
  · intro ht
    rcases htr with hro | ⟨hro, hc, c, newCfg, hcfg, hb, hrc⟩
    · unfold add_host_run
      simp [hro, ht]
    · unfold add_host_run
      simp [hro, hc, hcfg, hb, hrc, ht]
  · intro ht
    rcases htr with hro | ⟨hro, hc, c, newCfg, hcfg, hb, hrc⟩
    · have hstep : add_host_run p timeout (e :: rest) =
          ⟨(add_host_run p timeout rest).submissions,
            5 :: (add_host_run p timeout rest).sleeps,
            1 + (add_host_run p timeout rest).attempts,
            (add_host_run p timeout rest).result⟩ := by
        conv_lhs => unfold add_host_run
        simp [hro, ht]
      rw [hstep]
      exact ⟨rfl, rfl⟩
    · have hstep : add_host_run p timeout (e :: rest) =
          ⟨newCfg :: (add_host_run p timeout rest).submissions,
            5 :: (add_host_run p timeout rest).sleeps,
            1 + (add_host_run p timeout rest).attempts,
            (add_host_run p timeout rest).result⟩ := by
        conv_lhs => unfold add_host_run
        simp [hro, hc, hcfg, hb, hrc, ht]
      rw [hstep]
      exact ⟨rfl, rfl⟩

/-- Witness for C7 at a concrete transient attempt (a failed read with
elapsed time already past the timeout). -/
theorem add_host_retry_policy_witness :
    add_host_default_timeout = 180
  ∧ (∀ s ∈ (add_host_run pReplica 180 [⟨false, 0, none, false, 200, 9⟩]).sleeps, s = 5)
  ∧ (add_host_run pReplica 180 [⟨false, 0, none, false, 200, 9⟩]).submissions =
      (([⟨false, 0, none, false, 200, 9⟩] : List AddEnv).take
        (add_host_run pReplica 180 [⟨false, 0, none, false, 200, 9⟩]).attempts).filterMap
        (attemptSubmission pReplica)
  ∧ ((⟨false, 0, none, false, 200, 9⟩ : AddEnv).elapsed > 180 →
      (add_host_run pReplica 180 [⟨false, 0, none, false, 200, 9⟩]).result =
        .failTimeout (⟨false, 0, none, false, 200, 9⟩ : AddEnv).errTag)
  ∧ (¬ (⟨false, 0, none, false, 200, 9⟩ : AddEnv).elapsed > 180 →
      (add_host_run pReplica 180 [⟨false, 0, none, false, 200, 9⟩]).result =
        (add_host_run pReplica 180 []).result
      ∧ (add_host_run pReplica 180 [⟨false, 0, none, false, 200, 9⟩]).sleeps =
          5 :: (add_host_run pReplica 180 []).sleeps) :=
  add_host_retry_policy pReplica 180 [⟨false, 0, none, false, 200, 9⟩]
    ⟨false, 0, none, false, 200, 9⟩ [] (Or.inl rfl)

/-- The if/elif chain of the compatibility gate fails exactly when one of
the six table conditions holds, and reports the first condition that
holds. -/
theorem check_compatibility_key (a b : List Nat) :
    ((check_compatibility a b).isSome = true ↔
      (vge a [4, 0] && vlt b [3, 7]) = true ∨ (vge a [3, 6] && vlt b [3, 6]) = true ∨
      (vge a [3, 2] && vlt b [3, 2]) = true ∨ (vge a [3, 0] && vle b [2, 8]) = true ∨
      (vge a [2, 6] && vle b [2, 7]) = true ∨ vle b [2, 5] = true)
  ∧ check_compatibility a b = firstTrueIdx (compatConds a b) := by
  unfold check_compatibility compatConds
  cases h1 : (vge a [4, 0] && vlt b [3, 7]) <;>
  cases h2 : (vge a [3, 6] && vlt b [3, 6]) <;>
  cases h3 : (vge a [3, 2] && vlt b [3, 2]) <;>
  cases h4 : (vge a [3, 0] && vle b [2, 8]) <;>
  cases h5 : (vge a [2, 6] && vle b [2, 7]) <;>
  cases h6 : (vle b [2, 5]) <;>
  simp [h1, h2, h3, h4, h5, h6, firstTrueIdx]

/-- C10.  Compatibility gate: for every pair of server and driver version
strings, the gate fails exactly when the version table is violated —
server ≥ 4.0 with driver < 3.7, server ≥ 3.6 with driver < 3.6,
server ≥ 3.2 with driver < 3.2, server ≥ 3.0 with driver ≤ 2.8,
server ≥ 2.6 with driver ≤ 2.7, or driver ≤ 2.5 — and the rule reported is
the first violated one in that newest-to-oldest order. -/
theorem check_compatibility_table (srv drv : String) :
    ((check_compatibility_str srv drv).isSome = true ↔
      (vge (looseVer srv) [4, 0] && vlt (looseVer drv) [3, 7]) = true ∨
      (vge (looseVer srv) [3, 6] && vlt (looseVer drv) [3, 6]) = true ∨
      (vge (looseVer srv) [3, 2] && vlt (looseVer drv) [3, 2]) = true ∨
      (vge (looseVer srv) [3, 0] && vle (looseVer drv) [2, 8]) = true ∨
      (vge (looseVer srv) [2, 6] && vle (looseVer drv) [2, 7]) = true ∨
      vle (looseVer drv) [2, 5] = true)
  ∧ check_compatibility_str srv drv =
      firstTrueIdx (compatConds (looseVer srv) (looseVer drv)) :=
  check_compatibility_key (looseVer srv) (looseVer drv)
